import Mathlib

/-!
Verification of the statistical engine of the A/B-test sample-size calculator
(`src/app.py`).  The engine is a pair of pure functions over real numbers:

* `calculate_sample_size` — required per-variant sample size for a
  two-proportion z-test (rounded up to an integer; `⊤` models the
  `float('inf')` sentinel returned when the effect is degenerate);
* `calculate_power_for_sample_size` — achieved power for a fixed sample size.

Both depend on the standard-normal quantile function (`scipy.stats.norm.ppf`)
and CDF (`scipy.stats.norm.cdf`), which are external to the repository; they
are embedded as explicit function parameters `ppf` and `cdf`, and theorems
assume only the standard facts about them that each claim needs (monotonicity,
`cdf ∘ ppf = id` on `(0,1)`, sign conventions around `1/2`).

`ratPPF`/`ratCDF` below are a concrete rational quantile/CDF pair (a scaled
logistic-like bijection of `ℝ` with `(0,1)`) satisfying all of those facts;
they serve as the concrete instantiation for witnesses and counterexamples.
-/

/-- Variant conversion rate `p2` as derived inside `calculate_sample_size`
(`src/app.py` lines 62–65): `p2 = baseline_rate * (1 + mde)`, and
`if p2 > 1: p2 = min(p2, 0.9999)`.  Note the clamp fires only when `p2`
STRICTLY exceeds 1. -/
noncomputable def variantRateSize (baseline_rate mde : ℝ) : ℝ :=
  if baseline_rate * (1 + mde) > 1 then min (baseline_rate * (1 + mde)) 0.9999
  else baseline_rate * (1 + mde)

/-- Variant conversion rate `p2` as derived inside
`calculate_power_for_sample_size` (`src/app.py` lines 90–94):
`p2 = baseline_rate * (1 + mde)`, and `if p2 > 1: p2 = 0.9999`. -/
noncomputable def variantRatePower (baseline_rate mde : ℝ) : ℝ :=
  if baseline_rate * (1 + mde) > 1 then 0.9999
  else baseline_rate * (1 + mde)

/-- `calculate_sample_size` from `src/app.py` lines 47–85, with the external
`scipy.stats.norm.ppf` passed in as `ppf`.  Returns `⊤` (the `float('inf')`
sentinel) when the squared rate difference is zero, otherwise the ceiling of
the closed-form real value. -/
noncomputable def calculate_sample_size (ppf : ℝ → ℝ)
    (baseline_rate mde power significance : ℝ) (two_tailed : Bool) :
    WithTop ℤ :=
  let p1 := baseline_rate
  let p2 := variantRateSize baseline_rate mde
  let p_pooled := (p1 + p2) / 2
  let z_alpha := if two_tailed then ppf (1 - significance / 2)
                 else ppf (1 - significance)
  let z_beta := ppf power
  let numerator := (z_alpha * Real.sqrt (2 * p_pooled * (1 - p_pooled)) +
      z_beta * Real.sqrt (p1 * (1 - p1) + p2 * (1 - p2))) ^ 2
  let denominator := (p2 - p1) ^ 2
  if denominator = 0 then ⊤
  else ((⌈numerator / denominator⌉ : ℤ) : WithTop ℤ)

/-- `calculate_power_for_sample_size` from `src/app.py` lines 88–112, with the
external `scipy.stats.norm.cdf`/`ppf` passed in as `cdf`/`ppf`.  The sample
size `n` enters only through real arithmetic, so it is taken as a real
parameter (callers pass integers). -/
noncomputable def calculate_power_for_sample_size (cdf ppf : ℝ → ℝ)
    (baseline_rate mde n significance : ℝ) (two_tailed : Bool) : ℝ :=
  let p1 := baseline_rate
  let p2 := variantRatePower baseline_rate mde
  let z_alpha := if two_tailed then ppf (1 - significance / 2)
                 else ppf (1 - significance)
  let effect := |p2 - p1|
  let se := Real.sqrt (p1 * (1 - p1) / n + p2 * (1 - p2) / n)
  if se = 0 then 1
  else min (cdf (effect / se - z_alpha)) 0.9999

/-- Outcome visible to the user at a UI entry point: either the input was
rejected with an error message before the engine ran, or the engine was
invoked and its result displayed. -/
inductive UIOutcome where
  | rejected : UIOutcome
  | computed : WithTop ℤ → UIOutcome
deriving DecidableEq

/-- The main Calculator tab (`src/app.py` lines 226–237): the expected variant
rate is checked first, and the engine runs only when it does not exceed 1
(rates are already converted from percent to fractions here). -/
noncomputable def main_tab_result (ppf : ℝ → ℝ)
    (baseline_rate mde power significance : ℝ) (two_tailed : Bool) :
    UIOutcome :=
  if baseline_rate * (1 + mde) > 1 then UIOutcome.rejected
  else UIOutcome.computed
    (calculate_sample_size ppf baseline_rate mde power significance two_tailed)

/-- The comparison-tab `add_scenario` form handler (`src/app.py` lines
459–470): the engine is invoked unconditionally on the submitted inputs; no
variant-rate validation is performed. -/
noncomputable def add_scenario_result (ppf : ℝ → ℝ)
    (baseline_rate mde power significance : ℝ) (two_tailed : Bool) :
    UIOutcome :=
  UIOutcome.computed
    (calculate_sample_size ppf baseline_rate mde power significance two_tailed)

/-!
Concrete quantile/CDF pair used by witnesses and counterexamples.  `ratCDF` is
a strictly increasing bijection of `ℝ` onto `(0,1)` with rational values at
rational points, and `ratPPF` is its exact inverse on `(0,1)`.
-/

/-- Concrete CDF stand-in: `ratCDF x = 1/2 + x / (2 * (1 + |x|))`. -/
noncomputable def ratCDF (x : ℝ) : ℝ := 1 / 2 + x / (2 * (1 + |x|))

/-- Concrete quantile stand-in, the exact inverse of `ratCDF` on `(0,1)`:
`ratPPF p = (2p − 1) / (1 − |2p − 1|)`. -/
noncomputable def ratPPF (p : ℝ) : ℝ := (2 * p - 1) / (1 - |2 * p - 1|)

/-- Concrete quantile stand-in pinned to the true Gaussian values the spec's
concrete scenario quotes: `Φ⁻¹(0.8) ≈ 0.8416` and `Φ⁻¹(0.975) ≈ 1.96`. -/
noncomputable def stepPPF (p : ℝ) : ℝ := if p ≤ 4/5 then 0.8416 else 1.96

/-- The two clamp styles in the source (`min(p2, 0.9999)` versus an
unconditional reassignment to `0.9999`, both guarded by `p2 > 1`) produce the
same value. -/
theorem variantRate_eq (baseline_rate mde : ℝ) :
    variantRateSize baseline_rate mde = variantRatePower baseline_rate mde := by
  unfold variantRateSize variantRatePower
  by_cases h : baseline_rate * (1 + mde) > 1
  · simp only [if_pos h]
    exact min_eq_right (by linarith)
  · simp only [if_neg h]

theorem ratCDF_monotone : Monotone ratCDF := by
  intro x y hxy
  unfold ratCDF
  have key : x * (1 + |y|) ≤ y * (1 + |x|) := by
    have h1 : x * |y| - y * |x| ≤ y - x := by
      rcases le_or_lt 0 x with hx0 | hx0
      · have hy0 : 0 ≤ y := le_trans hx0 hxy
        rw [abs_of_nonneg hx0, abs_of_nonneg hy0]
        nlinarith
      · rcases le_or_lt 0 y with hy0 | hy0
        · rw [abs_of_neg hx0, abs_of_nonneg hy0]
          nlinarith
        · rw [abs_of_neg hx0, abs_of_neg hy0]
          nlinarith
    nlinarith
  have h2 : x / (2 * (1 + |x|)) ≤ y / (2 * (1 + |y|)) := by
    rw [div_le_div_iff (by positivity) (by positivity)]
    nlinarith
  linarith

theorem ratCDF_nonneg (x : ℝ) : 0 ≤ ratCDF x := by
  unfold ratCDF
  have h : (0:ℝ) < 2 * (1 + |x|) := by positivity
  have hx : -|x| ≤ x := neg_abs_le x
  have hhalf : -(1/2 : ℝ) ≤ x / (2 * (1 + |x|)) := by
    rw [le_div_iff h]
    nlinarith
  linarith

theorem ratCDF_lt_one (x : ℝ) : ratCDF x < 1 := by
  unfold ratCDF
  have h : (0:ℝ) < 2 * (1 + |x|) := by positivity
  have hx : x ≤ |x| := le_abs_self x
  have hhalf : x / (2 * (1 + |x|)) < 1/2 := by
    rw [div_lt_iff h]
    nlinarith
  linarith

theorem ratCDF_ratPPF (p : ℝ) (h0 : 0 < p) (h1 : p < 1) :
    ratCDF (ratPPF p) = p := by
  unfold ratCDF ratPPF
  set u := 2 * p - 1 with hu
  have hub : |u| < 1 := by
    rw [abs_lt]
    constructor <;> [skip; skip] <;> simp only [hu] <;> linarith
  have hpos : 0 < 1 - |u| := by linarith
  have habs : |u / (1 - |u|)| = |u| / (1 - |u|) := by
    rw [abs_div, abs_of_pos hpos]
  rw [habs]
  have hden : 1 + |u| / (1 - |u|) = 1 / (1 - |u|) := by
    field_simp
  rw [hden]
  have : u / (1 - |u|) / (2 * (1 / (1 - |u|))) = u / 2 := by
    field_simp
  rw [this, hu]
  ring

theorem ratPPF_mono (p q : ℝ) (hp : 0 < p) (hpq : p ≤ q) (hq : q < 1) :
    ratPPF p ≤ ratPPF q := by
  unfold ratPPF
  set u := 2 * p - 1 with hu
  set w := 2 * q - 1 with hw
  have hub : |u| < 1 := by
    rw [abs_lt]
    constructor <;> simp only [hu] <;> linarith
  have hwb : |w| < 1 := by
    rw [abs_lt]
    constructor <;> simp only [hw] <;> linarith
  have huw : u ≤ w := by simp only [hu, hw]; linarith
  have hupos : 0 < 1 - |u| := by linarith
  have hwpos : 0 < 1 - |w| := by linarith
  rw [div_le_div_iff hupos hwpos]
  have h1 : w * |u| - u * |w| ≤ w - u := by
    rcases le_or_lt 0 u with hu0 | hu0
    · have hw0 : 0 ≤ w := le_trans hu0 huw
      rw [abs_of_nonneg hu0, abs_of_nonneg hw0]
      nlinarith
    · rcases le_or_lt 0 w with hw0 | hw0
      · rw [abs_of_neg hu0, abs_of_nonneg hw0]
        nlinarith
      · rw [abs_of_neg hu0, abs_of_neg hw0]
        nlinarith
  nlinarith

theorem ratPPF_nonneg (p : ℝ) (hp : 1/2 ≤ p) (hp1 : p < 1) : 0 ≤ ratPPF p := by
  unfold ratPPF
  have hnum : 0 ≤ 2 * p - 1 := by linarith
  have habs : |2 * p - 1| < 1 := by
    rw [abs_lt]
    constructor <;> linarith
  exact div_nonneg hnum (by linarith)

theorem ratPPF_pos (p : ℝ) (hp : 1/2 < p) (hp1 : p < 1) : 0 < ratPPF p := by
  unfold ratPPF
  have hnum : 0 < 2 * p - 1 := by linarith
  have habs : |2 * p - 1| < 1 := by
    rw [abs_lt]
    constructor <;> linarith
  exact div_pos hnum (by linarith)

/-! Small square-root helpers used when evaluating the engine at concrete
inputs. -/

theorem sqrt_eq_of_sq (a b : ℝ) (hb : 0 ≤ b) (h : b ^ 2 = a) :
    Real.sqrt a = b := by
  rw [← h]
  exact Real.sqrt_sq hb

theorem sqrt_le_of_sq (a b : ℝ) (hb : 0 ≤ b) (h : a ≤ b ^ 2) :
    Real.sqrt a ≤ b := by
  calc Real.sqrt a ≤ Real.sqrt (b ^ 2) := Real.sqrt_le_sqrt h
  _ = b := Real.sqrt_sq hb

theorem le_sqrt_of_sq (a b : ℝ) (hb : 0 ≤ b) (h : b ^ 2 ≤ a) :
    b ≤ Real.sqrt a := by
  calc b = Real.sqrt (b ^ 2) := (Real.sqrt_sq hb).symm
  _ ≤ Real.sqrt a := Real.sqrt_le_sqrt h

theorem sqrt_lt_of_sq (a b : ℝ) (hb : 0 < b) (h : a < b ^ 2) :
    Real.sqrt a < b := by
  rcases le_or_lt a 0 with ha | ha
  · calc Real.sqrt a = 0 := Real.sqrt_eq_zero_of_nonpos ha
    _ < b := hb
  · calc Real.sqrt a < Real.sqrt (b ^ 2) := Real.sqrt_lt_sqrt (le_of_lt ha) h
    _ = b := Real.sqrt_sq (le_of_lt hb)

/-- Pooled-minus-unpooled variance identity: the quantity under the
`z_alpha` square root exceeds the quantity under the `z_beta` square root by
exactly half the squared rate difference. -/
theorem pooled_sub_unpooled (p1 p2 : ℝ) :
    2 * ((p1 + p2) / 2) * (1 - (p1 + p2) / 2) -
      (p1 * (1 - p1) + p2 * (1 - p2)) = (p1 - p2) ^ 2 / 2 := by
  ring

/-- Clamped variant rate is positive for positive baseline and effect. -/
theorem variantRateSize_pos (b m : ℝ) (hb : 0 < b) (hm : 0 < m) :
    0 < variantRateSize b m := by
  unfold variantRateSize
  by_cases h : b * (1 + m) > 1
  · rw [if_pos h]
    apply lt_min
    · nlinarith
    · norm_num
  · rw [if_neg h]
    nlinarith

/-- Clamped variant rate never exceeds 1. -/
theorem variantRateSize_le_one (b m : ℝ) : variantRateSize b m ≤ 1 := by
  unfold variantRateSize
  by_cases h : b * (1 + m) > 1
  · rw [if_pos h]
    calc min (b * (1 + m)) 0.9999 ≤ 0.9999 := min_le_right _ _
    _ ≤ 1 := by norm_num
  · rw [if_neg h]
    exact le_of_not_lt h

/-! Unfolding helpers: explicit forms of the two engine functions on the
non-degenerate branches, used throughout the claim proofs. -/

/-- When the (clamped) variant rate differs from the baseline rate, the
sample-size engine takes its ceiling branch. -/
theorem sampleSize_eq (ppf : ℝ → ℝ) (b m pw s : ℝ) (tt : Bool)
    (hne : variantRateSize b m ≠ b) :
    calculate_sample_size ppf b m pw s tt =
      ((⌈((if tt then ppf (1 - s / 2) else ppf (1 - s)) *
        Real.sqrt (2 * ((b + variantRateSize b m) / 2) *
          (1 - (b + variantRateSize b m) / 2)) +
        ppf pw * Real.sqrt (b * (1 - b) +
          variantRateSize b m * (1 - variantRateSize b m))) ^ 2 /
        (variantRateSize b m - b) ^ 2⌉ : ℤ) : WithTop ℤ) := by
  simp only [calculate_sample_size]
  rw [if_neg (pow_ne_zero 2 (sub_ne_zero.mpr hne))]

/-- When the (clamped) variant rate equals the baseline rate, the sample-size
engine returns the infinity sentinel. -/
theorem sampleSize_top (ppf : ℝ → ℝ) (b m pw s : ℝ) (tt : Bool)
    (h : variantRateSize b m = b) :
    calculate_sample_size ppf b m pw s tt = ⊤ := by
  simp only [calculate_sample_size, h, sub_self]
  norm_num

/-- When the standard error is nonzero, the power engine takes its clamped-CDF
branch. -/
theorem power_eq (cdf ppf : ℝ → ℝ) (b m n s : ℝ) (tt : Bool)
    (hse : Real.sqrt (b * (1 - b) / n +
      variantRatePower b m * (1 - variantRatePower b m) / n) ≠ 0) :
    calculate_power_for_sample_size cdf ppf b m n s tt =
      min (cdf (|variantRatePower b m - b| /
        Real.sqrt (b * (1 - b) / n +
          variantRatePower b m * (1 - variantRatePower b m) / n) -
        (if tt then ppf (1 - s / 2) else ppf (1 - s)))) 0.9999 := by
  simp only [calculate_power_for_sample_size]
  rw [if_neg hse]

/-! Evaluations of the rational quantile stand-in at the sample points used by
witnesses and counterexamples. -/

theorem ratPPF_val_34 : ratPPF (3/4) = 1 := by
  unfold ratPPF
  rw [abs_of_nonneg (by norm_num : (0:ℝ) ≤ 2 * (3/4) - 1)]
  norm_num

theorem ratPPF_val_12 : ratPPF (1/2) = 0 := by
  unfold ratPPF
  norm_num

theorem ratPPF_val_29 : ratPPF (2/9) = -(5/4) := by
  unfold ratPPF
  rw [abs_of_nonpos (by norm_num : 2 * ((2:ℝ)/9) - 1 ≤ 0)]
  norm_num

theorem ratPPF_val_17 : ratPPF (1/7) = -(5/2) := by
  unfold ratPPF
  rw [abs_of_nonpos (by norm_num : 2 * ((1:ℝ)/7) - 1 ≤ 0)]
  norm_num

theorem ratPPF_val_15 : ratPPF (1/5) = -(3/2) := by
  unfold ratPPF
  rw [abs_of_nonpos (by norm_num : 2 * ((1:ℝ)/5) - 1 ≤ 0)]
  norm_num

theorem ratPPF_val_16 : ratPPF (1/6) = -2 := by
  unfold ratPPF
  rw [abs_of_nonpos (by norm_num : 2 * ((1:ℝ)/6) - 1 ≤ 0)]
  norm_num

theorem ratPPF_val_1112 : ratPPF (11/12) = 5 := by
  unfold ratPPF
  rw [abs_of_nonneg (by norm_num : (0:ℝ) ≤ 2 * (11/12) - 1)]
  norm_num

/-!
## Claim theorems
-/

/-- C2: for every input whose derived (clamped) variant rate `p2` equals the
baseline rate `p1` exactly — making the denominator `(p2 - p1)^2` zero —
`calculate_sample_size` returns the positive-infinity sentinel (modelled as
`⊤`) via its explicit `denominator == 0` guard, rather than dividing by
zero. -/
theorem C2_degenerate_effect (ppf : ℝ → ℝ)
    (baseline_rate mde power significance : ℝ) (two_tailed : Bool)
    (h : variantRateSize baseline_rate mde = baseline_rate) :
    calculate_sample_size ppf baseline_rate mde power significance two_tailed
      = ⊤ :=
  sampleSize_top ppf baseline_rate mde power significance two_tailed h

/-- Witness for C2 at baseline 1/2 and relative effect 0 (so `p2 = p1 = 1/2`),
with the concrete quantile stand-in. -/
theorem C2_degenerate_effect_witness :
    calculate_sample_size ratPPF (1/2) 0 (4/5) (1/20) true = ⊤ :=
  C2_degenerate_effect ratPPF (1/2) 0 (4/5) (1/20) true
    (by unfold variantRateSize; norm_num)

/-- C3 counterexample: at baseline 1/2 with relative effect 1 the raw variant
rate `baseline * (1 + effect)` is exactly 1; the clamp guard in both engine
functions is the strict test `p2 > 1`, so neither clamps and the `p2` used in
the variance terms is exactly 1 — not strictly inside `(0, 1)` as the claim
asserts for this boundary case. -/
theorem C3_clamp_counterexample :
    variantRateSize (1/2) 1 = 1 ∧ variantRatePower (1/2) 1 = 1 ∧
      (1:ℝ) ∉ Set.Ioo (0:ℝ) 1 := by
  refine ⟨?_, ?_, ?_⟩
  · unfold variantRateSize
    norm_num
  · unfold variantRatePower
    norm_num
  · simp [Set.mem_Ioo]

/-- C3 (amended): for baseline in `(0,1)` and positive relative effect, the
derived variant rate used by both engine functions lies in the half-open
interval `(0, 1]`: it is clamped to `0.9999` exactly when the raw rate
strictly exceeds 1, and it is strictly below 1 except at the boundary where
`baseline * (1 + effect)` equals 1 exactly, which is kept at 1 unclamped. -/
theorem C3_clamp_invariant (b m : ℝ) (hb0 : 0 < b) (hb1 : b < 1) (hm : 0 < m) :
    0 < variantRateSize b m ∧ variantRateSize b m ≤ 1 ∧
      (b * (1 + m) ≠ 1 → variantRateSize b m < 1) ∧
      (1 < b * (1 + m) → variantRateSize b m = 0.9999) ∧
      variantRatePower b m = variantRateSize b m := by
  refine ⟨variantRateSize_pos b m hb0 hm, variantRateSize_le_one b m, ?_, ?_, ?_⟩
  · intro hne
    unfold variantRateSize
    by_cases h : b * (1 + m) > 1
    · rw [if_pos h]
      calc min (b * (1 + m)) 0.9999 ≤ 0.9999 := min_le_right _ _
      _ < 1 := by norm_num
    · rw [if_neg h]
      exact lt_of_le_of_ne (le_of_not_lt h) hne
  · intro h
    unfold variantRateSize
    rw [if_pos h]
    exact min_eq_right (by linarith)
  · exact (variantRate_eq b m).symm

/-- Witness for C3 (amended) at baseline 1/2, relative effect 1/2. -/
theorem C3_clamp_invariant_witness :
    0 < variantRateSize (1/2) (1/2) ∧ variantRateSize (1/2) (1/2) ≤ 1 ∧
      ((1:ℝ)/2 * (1 + 1/2) ≠ 1 → variantRateSize (1/2) (1/2) < 1) ∧
      (1 < (1:ℝ)/2 * (1 + 1/2) → variantRateSize (1/2) (1/2) = 0.9999) ∧
      variantRatePower (1/2) (1/2) = variantRateSize (1/2) (1/2) :=
  C3_clamp_invariant (1/2) (1/2) (by norm_num) (by norm_num) (by norm_num)

/-- C4 counterexample: the comparison-tab `add_scenario` form performs no
variant-rate validation — at baseline 9/10 and relative effect 1 the implied
variant rate 9/5 exceeds 1, yet the handler is not a rejection: it invokes the
engine (which silently clamps) and displays its result. -/
theorem C4_validation_counterexample :
    (1:ℝ) < 9/10 * (1 + 1) ∧
    add_scenario_result ratPPF (9/10) 1 (4/5) (1/20) true ≠ UIOutcome.rejected ∧
    add_scenario_result ratPPF (9/10) 1 (4/5) (1/20) true =
      UIOutcome.computed (calculate_sample_size ratPPF (9/10) 1 (4/5) (1/20) true) := by
  refine ⟨by norm_num, ?_, rfl⟩
  unfold add_scenario_result
  intro h
  exact UIOutcome.noConfusion h

/-- C4 (amended): only the main Calculator tab rejects inputs whose implied
variant rate exceeds 1 before invoking the engine; the comparison-tab
`add_scenario` form invokes the engine unconditionally on such inputs. -/
theorem C4_validation (ppf : ℝ → ℝ) (b m pw s : ℝ) (tt : Bool)
    (h : 1 < b * (1 + m)) :
    main_tab_result ppf b m pw s tt = UIOutcome.rejected ∧
    add_scenario_result ppf b m pw s tt =
      UIOutcome.computed (calculate_sample_size ppf b m pw s tt) := by
  constructor
  · unfold main_tab_result
    rw [if_pos h]
  · rfl

/-- Witness for C4 (amended) at baseline 9/10, relative effect 1, one-tailed. -/
theorem C4_validation_witness :
    main_tab_result ratPPF (9/10) 1 (4/5) (1/20) false = UIOutcome.rejected ∧
    add_scenario_result ratPPF (9/10) 1 (4/5) (1/20) false =
      UIOutcome.computed (calculate_sample_size ratPPF (9/10) 1 (4/5) (1/20) false) :=
  C4_validation ratPPF (9/10) 1 (4/5) (1/20) false (by norm_num)

/-- Clamped variant rate at baseline 1/5 with relative effect 3. -/
theorem vrs_15_3 : variantRateSize (1/5) 3 = 4/5 := by
  unfold variantRateSize
  rw [if_neg (by norm_num)]
  norm_num

/-- Pooled-variance square root at `p1 = 1/5`, `p2 = 4/5`. -/
theorem sqrtA_15_45 :
    Real.sqrt (2 * (((1:ℝ)/5 + 4/5) / 2) * (1 - ((1:ℝ)/5 + 4/5) / 2)) =
      Real.sqrt 2 / 2 := by
  rw [show 2 * (((1:ℝ)/5 + 4/5) / 2) * (1 - ((1:ℝ)/5 + 4/5) / 2) = 1/2 by norm_num]
  apply sqrt_eq_of_sq
  · positivity
  · rw [div_pow, Real.sq_sqrt] <;> norm_num

/-- Unpooled-variance square root at `p1 = 1/5`, `p2 = 4/5`. -/
theorem sqrtV_15_45 :
    Real.sqrt ((1:ℝ)/5 * (1 - 1/5) + 4/5 * (1 - 4/5)) =
      2 * Real.sqrt 2 / 5 := by
  rw [show (1:ℝ)/5 * (1 - 1/5) + 4/5 * (1 - 4/5) = 8/25 by norm_num]
  apply sqrt_eq_of_sq
  · positivity
  · rw [div_pow, mul_pow, Real.sq_sqrt] <;> norm_num

/-- C5 counterexample: with the concrete quantile stand-in (which satisfies
every property the claim assumes of the normal quantile) and the in-domain
input baseline 1/5, relative effect 3 (so `p2 = 4/5 ≠ p1`), power 2/9,
significance 1/2, two-tailed, the closed-form real value is exactly 0 — the
`z_alpha`/`z_beta` square-root terms cancel — so the engine returns the
non-positive sample size 0, contradicting "always at least 1". -/
theorem C5_positive_counterexample :
    calculate_sample_size ratPPF (1/5) 3 (2/9) (1/2) true = ((0:ℤ) : WithTop ℤ) ∧
      (0:ℤ) < 1 := by
  refine ⟨?_, by norm_num⟩
  rw [sampleSize_eq ratPPF (1/5) 3 (2/9) (1/2) true (by rw [vrs_15_3]; norm_num),
    vrs_15_3]
  rw [if_pos rfl]
  rw [show (1 - 1/2/2 : ℝ) = 3/4 by norm_num, ratPPF_val_34, ratPPF_val_29,
    sqrtA_15_45, sqrtV_15_45]
  have hz : (1 * (Real.sqrt 2 / 2) + -(5/4) * (2 * Real.sqrt 2 / 5)) = 0 := by
    ring
  rw [hz]
  norm_num

/-- C5 (amended): for valid inputs with requested power at least 1/2 and a
critical value taken above the median (always so for two-tailed tests; for
one-tailed tests when significance is below 1/2), and a non-degenerate clamped
variant rate, `calculate_sample_size` returns a finite integer at least 1 —
the ceiling of a strictly positive closed-form real value. -/
theorem C5_positive_sample_size (ppf : ℝ → ℝ) (b m pw s : ℝ) (tt : Bool)
    (hb0 : 0 < b) (hb1 : b < 1) (hm : 0 < m)
    (hpw : 1/2 ≤ pw) (hpw1 : pw < 1) (hs0 : 0 < s) (hs1 : s < 1)
    (hz : tt = true ∨ s < 1/2)
    (hne : variantRateSize b m ≠ b)
    (hppf_nonneg : ∀ q, 1/2 ≤ q → q < 1 → 0 ≤ ppf q)
    (hppf_pos : ∀ q, 1/2 < q → q < 1 → 0 < ppf q) :
    ∃ k : ℤ, calculate_sample_size ppf b m pw s tt = (k : WithTop ℤ) ∧ 1 ≤ k := by
  rw [sampleSize_eq ppf b m pw s tt hne]
  refine ⟨_, rfl, ?_⟩
  have hp2 : 0 < variantRateSize b m := variantRateSize_pos b m hb0 hm
  have hp2le : variantRateSize b m ≤ 1 := variantRateSize_le_one b m
  have hza : 0 < (if tt then ppf (1 - s / 2) else ppf (1 - s)) := by
    rcases hz with h | h
    · rw [h, if_pos rfl]
      exact hppf_pos _ (by linarith) (by linarith)
    · cases tt
      · rw [if_neg Bool.false_ne_true]
        exact hppf_pos _ (by linarith) (by linarith)
      · rw [if_pos rfl]
        exact hppf_pos _ (by linarith) (by linarith)
  have hzb : 0 ≤ ppf pw := hppf_nonneg pw hpw hpw1
  have hA : 0 < 2 * ((b + variantRateSize b m) / 2) *
      (1 - (b + variantRateSize b m) / 2) := by
    have hx : 0 < (b + variantRateSize b m) / 2 := by linarith
    have hy : 0 < 1 - (b + variantRateSize b m) / 2 := by linarith
    have := mul_pos (mul_pos (by norm_num : (0:ℝ) < 2) hx) hy
    linarith
  have hsa : 0 < Real.sqrt (2 * ((b + variantRateSize b m) / 2) *
      (1 - (b + variantRateSize b m) / 2)) := Real.sqrt_pos.mpr hA
  have hsv : 0 ≤ Real.sqrt (b * (1 - b) +
      variantRateSize b m * (1 - variantRateSize b m)) := Real.sqrt_nonneg _
  have hB : 0 < (if tt then ppf (1 - s / 2) else ppf (1 - s)) *
      Real.sqrt (2 * ((b + variantRateSize b m) / 2) *
        (1 - (b + variantRateSize b m) / 2)) +
      ppf pw * Real.sqrt (b * (1 - b) +
        variantRateSize b m * (1 - variantRateSize b m)) := by
    have h1 := mul_pos hza hsa
    have h2 := mul_nonneg hzb hsv
    linarith
  have hden : (0:ℝ) < (variantRateSize b m - b) ^ 2 := by
    have hne2 : variantRateSize b m - b ≠ 0 := sub_ne_zero.mpr hne
    exact lt_of_le_of_ne (sq_nonneg _) (Ne.symm (pow_ne_zero 2 hne2))
  have hpos : 0 < ((if tt then ppf (1 - s / 2) else ppf (1 - s)) *
      Real.sqrt (2 * ((b + variantRateSize b m) / 2) *
        (1 - (b + variantRateSize b m) / 2)) +
      ppf pw * Real.sqrt (b * (1 - b) +
        variantRateSize b m * (1 - variantRateSize b m))) ^ 2 /
      (variantRateSize b m - b) ^ 2 := div_pos (pow_pos hB 2) hden
  have := Int.lt_ceil.mpr (by exact_mod_cast hpos :
    ((0:ℤ):ℝ) < ((if tt then ppf (1 - s / 2) else ppf (1 - s)) *
      Real.sqrt (2 * ((b + variantRateSize b m) / 2) *
        (1 - (b + variantRateSize b m) / 2)) +
      ppf pw * Real.sqrt (b * (1 - b) +
        variantRateSize b m * (1 - variantRateSize b m))) ^ 2 /
      (variantRateSize b m - b) ^ 2)
  omega

/-- Witness for C5 (amended): baseline 1/5, relative effect 3, power 3/4,
significance 1/2, two-tailed, with the concrete quantile stand-in. -/
theorem C5_positive_sample_size_witness :
    ∃ k : ℤ, calculate_sample_size ratPPF (1/5) 3 (3/4) (1/2) true =
      (k : WithTop ℤ) ∧ 1 ≤ k :=
  C5_positive_sample_size ratPPF (1/5) 3 (3/4) (1/2) true
    (by norm_num) (by norm_num) (by norm_num) (by norm_num) (by norm_num)
    (by norm_num) (by norm_num) (Or.inl rfl)
    (by unfold variantRateSize; norm_num)
    (fun q h1 h2 => ratPPF_nonneg q h1 h2)
    (fun q h1 h2 => ratPPF_pos q h1 h2)

/-- C6 counterexample: with the concrete quantile stand-in and the in-domain
input baseline 1/5, relative effect 3, power 1/5, significance 1/2, the
one-tailed sample size is 2 while the two-tailed sample size is 1 — the
one-tailed size is NOT `≤` the two-tailed size.  (With power below 1/2 the
`z_beta` term is negative, so lowering the critical value moves the squared
numerator further from zero.) -/
theorem C6_tail_counterexample :
    calculate_sample_size ratPPF (1/5) 3 (1/5) (1/2) false = ((2:ℤ) : WithTop ℤ) ∧
    calculate_sample_size ratPPF (1/5) 3 (1/5) (1/2) true = ((1:ℤ) : WithTop ℤ) ∧
    (1:ℤ) < 2 := by
  have hsq : Real.sqrt 2 ^ 2 = 2 := Real.sq_sqrt (by norm_num)
  refine ⟨?_, ?_, by norm_num⟩
  · rw [sampleSize_eq ratPPF (1/5) 3 (1/5) (1/2) false (by rw [vrs_15_3]; norm_num),
      vrs_15_3]
    rw [if_neg Bool.false_ne_true]
    rw [show (1 - 1/2 : ℝ) = 1/2 by norm_num, ratPPF_val_12, ratPPF_val_15,
      sqrtA_15_45, sqrtV_15_45]
    have hB : (0 * (Real.sqrt 2 / 2) + -(3/2) * (2 * Real.sqrt 2 / 5)) ^ 2 =
        18/25 := by
      rw [show (0 * (Real.sqrt 2 / 2) + -(3/2) * (2 * Real.sqrt 2 / 5)) =
        -(3/5) * Real.sqrt 2 by ring]
      rw [mul_pow, hsq]
      norm_num
    rw [hB]
    norm_num [Int.ceil_eq_iff]
  · rw [sampleSize_eq ratPPF (1/5) 3 (1/5) (1/2) true (by rw [vrs_15_3]; norm_num),
      vrs_15_3]
    rw [if_pos rfl]
    rw [show (1 - 1/2/2 : ℝ) = 3/4 by norm_num, ratPPF_val_34, ratPPF_val_15,
      sqrtA_15_45, sqrtV_15_45]
    have hB : (1 * (Real.sqrt 2 / 2) + -(3/2) * (2 * Real.sqrt 2 / 5)) ^ 2 =
        1/50 := by
      rw [show (1 * (Real.sqrt 2 / 2) + -(3/2) * (2 * Real.sqrt 2 / 5)) =
        -(1/10) * Real.sqrt 2 by ring]
      rw [mul_pow, hsq]
      norm_num
    rw [hB]
    norm_num [Int.ceil_eq_iff]

/-- C6 (amended): for identical inputs with requested power at least 1/2 and
significance at most 1/2, the one-tailed required sample size is at most the
two-tailed one (including the degenerate case, where both are the infinity
sentinel). -/
theorem C6_tail_consistency (ppf : ℝ → ℝ) (b m pw s : ℝ)
    (hb0 : 0 < b) (hb1 : b < 1) (hm : 0 < m)
    (hpw : 1/2 ≤ pw) (hpw1 : pw < 1) (hs0 : 0 < s) (hs2 : s ≤ 1/2)
    (hppf_nonneg : ∀ q, 1/2 ≤ q → q < 1 → 0 ≤ ppf q)
    (hppf_mono : ∀ p q, 0 < p → p ≤ q → q < 1 → ppf p ≤ ppf q) :
    calculate_sample_size ppf b m pw s false ≤
      calculate_sample_size ppf b m pw s true := by
  by_cases hne : variantRateSize b m = b
  · rw [sampleSize_top ppf b m pw s false hne, sampleSize_top ppf b m pw s true hne]
  · rw [sampleSize_eq ppf b m pw s false hne, sampleSize_eq ppf b m pw s true hne]
    rw [if_neg Bool.false_ne_true, if_pos rfl]
    rw [WithTop.coe_le_coe]
    apply Int.ceil_le_ceil
    have h1 : 0 ≤ ppf (1 - s) := hppf_nonneg _ (by linarith) (by linarith)
    have h2 : ppf (1 - s) ≤ ppf (1 - s / 2) :=
      hppf_mono _ _ (by linarith) (by linarith) (by linarith)
    have h3 : 0 ≤ ppf pw := hppf_nonneg pw hpw hpw1
    have h4 : 0 ≤ Real.sqrt (2 * ((b + variantRateSize b m) / 2) *
        (1 - (b + variantRateSize b m) / 2)) := Real.sqrt_nonneg _
    have h5 : 0 ≤ Real.sqrt (b * (1 - b) +
        variantRateSize b m * (1 - variantRateSize b m)) := Real.sqrt_nonneg _
    have hB1 : 0 ≤ ppf (1 - s) * Real.sqrt (2 * ((b + variantRateSize b m) / 2) *
        (1 - (b + variantRateSize b m) / 2)) +
        ppf pw * Real.sqrt (b * (1 - b) +
          variantRateSize b m * (1 - variantRateSize b m)) :=
      add_nonneg (mul_nonneg h1 h4) (mul_nonneg h3 h5)
    have hB12 : ppf (1 - s) * Real.sqrt (2 * ((b + variantRateSize b m) / 2) *
        (1 - (b + variantRateSize b m) / 2)) +
        ppf pw * Real.sqrt (b * (1 - b) +
          variantRateSize b m * (1 - variantRateSize b m)) ≤
        ppf (1 - s / 2) * Real.sqrt (2 * ((b + variantRateSize b m) / 2) *
        (1 - (b + variantRateSize b m) / 2)) +
        ppf pw * Real.sqrt (b * (1 - b) +
          variantRateSize b m * (1 - variantRateSize b m)) :=
      add_le_add_right (mul_le_mul_of_nonneg_right h2 h4) _
    have hnum := pow_le_pow_left hB1 hB12 2
    gcongr

/-- Witness for C6 (amended) at baseline 1/5, relative effect 3, power 3/4,
significance 1/2, with the concrete quantile stand-in. -/
theorem C6_tail_consistency_witness :
    calculate_sample_size ratPPF (1/5) 3 (3/4) (1/2) false ≤
      calculate_sample_size ratPPF (1/5) 3 (3/4) (1/2) true :=
  C6_tail_consistency ratPPF (1/5) 3 (3/4) (1/2)
    (by norm_num) (by norm_num) (by norm_num) (by norm_num) (by norm_num)
    (by norm_num) (by norm_num)
    (fun q h1 h2 => ratPPF_nonneg q h1 h2)
    (fun p q h1 h2 h3 => ratPPF_mono p q h1 h2 h3)

/-- C7 counterexample: with the concrete quantile stand-in, baseline 1/5,
relative effect 3, significance 1/2, two-tailed, the requested powers
1/7 ≤ 1/5 (both in the claimed domain `(0,1)`) yield sample sizes 2 and 1
respectively — the sample size DECREASES as requested power increases. -/
theorem C7_power_mono_counterexample :
    calculate_sample_size ratPPF (1/5) 3 (1/7) (1/2) true = ((2:ℤ) : WithTop ℤ) ∧
    calculate_sample_size ratPPF (1/5) 3 (1/5) (1/2) true = ((1:ℤ) : WithTop ℤ) ∧
    ((1:ℝ)/7 ≤ 1/5) ∧ (1:ℤ) < 2 := by
  have hsq : Real.sqrt 2 ^ 2 = 2 := Real.sq_sqrt (by norm_num)
  refine ⟨?_, ?_, by norm_num, by norm_num⟩
  · rw [sampleSize_eq ratPPF (1/5) 3 (1/7) (1/2) true (by rw [vrs_15_3]; norm_num),
      vrs_15_3]
    rw [if_pos rfl]
    rw [show (1 - 1/2/2 : ℝ) = 3/4 by norm_num, ratPPF_val_34, ratPPF_val_17,
      sqrtA_15_45, sqrtV_15_45]
    have hB : (1 * (Real.sqrt 2 / 2) + -(5/2) * (2 * Real.sqrt 2 / 5)) ^ 2 =
        1/2 := by
      rw [show (1 * (Real.sqrt 2 / 2) + -(5/2) * (2 * Real.sqrt 2 / 5)) =
        -(1/2) * Real.sqrt 2 by ring]
      rw [mul_pow, hsq]
      norm_num
    rw [hB]
    norm_num [Int.ceil_eq_iff]
  · rw [sampleSize_eq ratPPF (1/5) 3 (1/5) (1/2) true (by rw [vrs_15_3]; norm_num),
      vrs_15_3]
    rw [if_pos rfl]
    rw [show (1 - 1/2/2 : ℝ) = 3/4 by norm_num, ratPPF_val_34, ratPPF_val_15,
      sqrtA_15_45, sqrtV_15_45]
    have hB : (1 * (Real.sqrt 2 / 2) + -(3/2) * (2 * Real.sqrt 2 / 5)) ^ 2 =
        1/50 := by
      rw [show (1 * (Real.sqrt 2 / 2) + -(3/2) * (2 * Real.sqrt 2 / 5)) =
        -(1/10) * Real.sqrt 2 by ring]
      rw [mul_pow, hsq]
      norm_num
    rw [hB]
    norm_num [Int.ceil_eq_iff]

/-- C7 (amended): for fixed baseline, effect, significance and tail mode, with
both requested powers at least 1/2 (and, in one-tailed mode, significance at
most 1/2 so the critical value is nonnegative), the required sample size is
monotone in the requested power. -/
theorem C7_power_monotone (ppf : ℝ → ℝ) (b m pw1 pw2 s : ℝ) (tt : Bool)
    (hpw : 1/2 ≤ pw1) (hpw12 : pw1 ≤ pw2) (hpw2 : pw2 < 1)
    (hs0 : 0 < s) (hs1 : s < 1) (hz : tt = true ∨ s ≤ 1/2)
    (hppf_nonneg : ∀ q, 1/2 ≤ q → q < 1 → 0 ≤ ppf q)
    (hppf_mono : ∀ p q, 0 < p → p ≤ q → q < 1 → ppf p ≤ ppf q) :
    calculate_sample_size ppf b m pw1 s tt ≤
      calculate_sample_size ppf b m pw2 s tt := by
  by_cases hne : variantRateSize b m = b
  · rw [sampleSize_top ppf b m pw1 s tt hne, sampleSize_top ppf b m pw2 s tt hne]
  · rw [sampleSize_eq ppf b m pw1 s tt hne, sampleSize_eq ppf b m pw2 s tt hne]
    rw [WithTop.coe_le_coe]
    apply Int.ceil_le_ceil
    have hza : 0 ≤ (if tt then ppf (1 - s / 2) else ppf (1 - s)) := by
      rcases hz with h | h
      · rw [h, if_pos rfl]
        exact hppf_nonneg _ (by linarith) (by linarith)
      · cases tt
        · rw [if_neg Bool.false_ne_true]
          exact hppf_nonneg _ (by linarith) (by linarith)
        · rw [if_pos rfl]
          exact hppf_nonneg _ (by linarith) (by linarith)
    have h1 : 0 ≤ ppf pw1 := hppf_nonneg pw1 hpw (lt_of_le_of_lt hpw12 hpw2)
    have h2 : ppf pw1 ≤ ppf pw2 :=
      hppf_mono pw1 pw2 (by linarith) hpw12 hpw2
    have h4 : 0 ≤ Real.sqrt (2 * ((b + variantRateSize b m) / 2) *
        (1 - (b + variantRateSize b m) / 2)) := Real.sqrt_nonneg _
    have h5 : 0 ≤ Real.sqrt (b * (1 - b) +
        variantRateSize b m * (1 - variantRateSize b m)) := Real.sqrt_nonneg _
    have hB1 : 0 ≤ (if tt then ppf (1 - s / 2) else ppf (1 - s)) *
        Real.sqrt (2 * ((b + variantRateSize b m) / 2) *
          (1 - (b + variantRateSize b m) / 2)) +
        ppf pw1 * Real.sqrt (b * (1 - b) +
          variantRateSize b m * (1 - variantRateSize b m)) :=
      add_nonneg (mul_nonneg hza h4) (mul_nonneg h1 h5)
    have hB12 : (if tt then ppf (1 - s / 2) else ppf (1 - s)) *
        Real.sqrt (2 * ((b + variantRateSize b m) / 2) *
          (1 - (b + variantRateSize b m) / 2)) +
        ppf pw1 * Real.sqrt (b * (1 - b) +
          variantRateSize b m * (1 - variantRateSize b m)) ≤
        (if tt then ppf (1 - s / 2) else ppf (1 - s)) *
        Real.sqrt (2 * ((b + variantRateSize b m) / 2) *
          (1 - (b + variantRateSize b m) / 2)) +
        ppf pw2 * Real.sqrt (b * (1 - b) +
          variantRateSize b m * (1 - variantRateSize b m)) :=
      add_le_add_left (mul_le_mul_of_nonneg_right h2 h5) _
    have hnum := pow_le_pow_left hB1 hB12 2
    gcongr

/-- Witness for C7 (amended) at baseline 1/5, relative effect 3, powers
3/4 ≤ 11/12, significance 1/2, two-tailed, with the concrete stand-in. -/
theorem C7_power_monotone_witness :
    calculate_sample_size ratPPF (1/5) 3 (3/4) (1/2) true ≤
      calculate_sample_size ratPPF (1/5) 3 (11/12) (1/2) true :=
  C7_power_monotone ratPPF (1/5) 3 (3/4) (11/12) (1/2) true
    (by norm_num) (by norm_num) (by norm_num) (by norm_num) (by norm_num)
    (Or.inl rfl)
    (fun q h1 h2 => ratPPF_nonneg q h1 h2)
    (fun p q h1 h2 h3 => ratPPF_mono p q h1 h2 h3)

/-- C8: for baseline in `(0,1)`, a positive relative effect (part of a valid
`TestParameters` value), a positive integer sample size and significance in
`(0,1)`, the power engine returns a value in `[0, 0.9999]` — clamped above by
`min(_, 0.9999)` — and its zero-standard-error branch (which would return
exactly 1.0) is not reached, since the standard error is provably nonzero. -/
theorem C8_power_range (cdf ppf : ℝ → ℝ) (b m s : ℝ) (k : ℤ) (tt : Bool)
    (hb0 : 0 < b) (hb1 : b < 1) (hm : 0 < m) (hk : 1 ≤ k)
    (hs0 : 0 < s) (hs1 : s < 1)
    (hcdf0 : ∀ x, 0 ≤ cdf x) :
    0 ≤ calculate_power_for_sample_size cdf ppf b m (k:ℝ) s tt ∧
    calculate_power_for_sample_size cdf ppf b m (k:ℝ) s tt ≤ 0.9999 ∧
    Real.sqrt (b * (1 - b) / (k:ℝ) +
      variantRatePower b m * (1 - variantRatePower b m) / (k:ℝ)) ≠ 0 := by
  have hk0 : (0:ℝ) < (k:ℝ) := by exact_mod_cast hk
  have hp2pos : 0 < variantRatePower b m :=
    variantRate_eq b m ▸ variantRateSize_pos b m hb0 hm
  have hp2le : variantRatePower b m ≤ 1 :=
    variantRate_eq b m ▸ variantRateSize_le_one b m
  have harg : 0 < b * (1 - b) / (k:ℝ) +
      variantRatePower b m * (1 - variantRatePower b m) / (k:ℝ) := by
    have h1 : 0 < b * (1 - b) / (k:ℝ) :=
      div_pos (mul_pos hb0 (by linarith)) hk0
    have h2 : 0 ≤ variantRatePower b m * (1 - variantRatePower b m) / (k:ℝ) :=
      div_nonneg (mul_nonneg (le_of_lt hp2pos) (by linarith)) (le_of_lt hk0)
    linarith
  have hse : Real.sqrt (b * (1 - b) / (k:ℝ) +
      variantRatePower b m * (1 - variantRatePower b m) / (k:ℝ)) ≠ 0 :=
    ne_of_gt (Real.sqrt_pos.mpr harg)
  refine ⟨?_, ?_, hse⟩
  · rw [power_eq cdf ppf b m (k:ℝ) s tt hse]
    exact le_min (hcdf0 _) (by norm_num)
  · rw [power_eq cdf ppf b m (k:ℝ) s tt hse]
    exact min_le_right _ _

/-- Witness for C8 at baseline 1/5, relative effect 3, sample size 2,
significance 1/2, two-tailed, with the concrete stand-ins. -/
theorem C8_power_range_witness :
    0 ≤ calculate_power_for_sample_size ratCDF ratPPF (1/5) 3 ((2:ℤ):ℝ) (1/2) true ∧
    calculate_power_for_sample_size ratCDF ratPPF (1/5) 3 ((2:ℤ):ℝ) (1/2) true ≤ 0.9999 ∧
    Real.sqrt ((1:ℝ)/5 * (1 - 1/5) / ((2:ℤ):ℝ) +
      variantRatePower (1/5) 3 * (1 - variantRatePower (1/5) 3) / ((2:ℤ):ℝ)) ≠ 0 :=
  C8_power_range ratCDF ratPPF (1/5) 3 (1/2) 2 true
    (by norm_num) (by norm_num) (by norm_num) (by norm_num) (by norm_num)
    (by norm_num) (fun x => ratCDF_nonneg x)

/-- C10 (implicit): for fixed valid parameters with a non-degenerate clamped
variant rate, the achieved power computed by `calculate_power_for_sample_size`
is monotone in the sample size — more samples never reduce the reported
power. -/
theorem C10_power_monotone_in_n (cdf ppf : ℝ → ℝ) (b m s : ℝ) (tt : Bool)
    (k1 k2 : ℤ)
    (hb0 : 0 < b) (hb1 : b < 1) (hm : 0 < m)
    (hne : variantRatePower b m ≠ b)
    (hs0 : 0 < s) (hs1 : s < 1)
    (hk1 : 1 ≤ k1) (hk12 : k1 ≤ k2)
    (hcdf : Monotone cdf) :
    calculate_power_for_sample_size cdf ppf b m (k1:ℝ) s tt ≤
      calculate_power_for_sample_size cdf ppf b m (k2:ℝ) s tt := by
  have hk1r : (0:ℝ) < (k1:ℝ) := by exact_mod_cast hk1
  have hk2r : (0:ℝ) < (k2:ℝ) := by
    have : (1:ℤ) ≤ k2 := le_trans hk1 hk12
    exact_mod_cast this
  have hk12r : (k1:ℝ) ≤ (k2:ℝ) := by exact_mod_cast hk12
  have hp2pos : 0 < variantRatePower b m :=
    variantRate_eq b m ▸ variantRateSize_pos b m hb0 hm
  have hp2le : variantRatePower b m ≤ 1 :=
    variantRate_eq b m ▸ variantRateSize_le_one b m
  have hb' : 0 ≤ b * (1 - b) := mul_nonneg (le_of_lt hb0) (by linarith)
  have hp2' : 0 ≤ variantRatePower b m * (1 - variantRatePower b m) :=
    mul_nonneg (le_of_lt hp2pos) (by linarith)
  have harg1 : 0 < b * (1 - b) / (k1:ℝ) +
      variantRatePower b m * (1 - variantRatePower b m) / (k1:ℝ) := by
    have h1 : 0 < b * (1 - b) / (k1:ℝ) :=
      div_pos (mul_pos hb0 (by linarith)) hk1r
    have h2 : 0 ≤ variantRatePower b m * (1 - variantRatePower b m) / (k1:ℝ) :=
      div_nonneg hp2' (le_of_lt hk1r)
    linarith
  have harg2 : 0 < b * (1 - b) / (k2:ℝ) +
      variantRatePower b m * (1 - variantRatePower b m) / (k2:ℝ) := by
    have h1 : 0 < b * (1 - b) / (k2:ℝ) :=
      div_pos (mul_pos hb0 (by linarith)) hk2r
    have h2 : 0 ≤ variantRatePower b m * (1 - variantRatePower b m) / (k2:ℝ) :=
      div_nonneg hp2' (le_of_lt hk2r)
    linarith
  have hse1 : 0 < Real.sqrt (b * (1 - b) / (k1:ℝ) +
      variantRatePower b m * (1 - variantRatePower b m) / (k1:ℝ)) :=
    Real.sqrt_pos.mpr harg1
  have hse2 : 0 < Real.sqrt (b * (1 - b) / (k2:ℝ) +
      variantRatePower b m * (1 - variantRatePower b m) / (k2:ℝ)) :=
    Real.sqrt_pos.mpr harg2
  rw [power_eq cdf ppf b m (k1:ℝ) s tt (ne_of_gt hse1),
    power_eq cdf ppf b m (k2:ℝ) s tt (ne_of_gt hse2)]
  apply min_le_min _ le_rfl
  apply hcdf
  apply sub_le_sub_right
  have hsle : Real.sqrt (b * (1 - b) / (k2:ℝ) +
      variantRatePower b m * (1 - variantRatePower b m) / (k2:ℝ)) ≤
      Real.sqrt (b * (1 - b) / (k1:ℝ) +
      variantRatePower b m * (1 - variantRatePower b m) / (k1:ℝ)) := by
    apply Real.sqrt_le_sqrt
    gcongr
  gcongr

/-- Witness for C10 at baseline 1/5, relative effect 3, sample sizes 1 ≤ 4,
significance 1/2, two-tailed, with the concrete stand-ins. -/
theorem C10_power_monotone_in_n_witness :
    calculate_power_for_sample_size ratCDF ratPPF (1/5) 3 ((1:ℤ):ℝ) (1/2) true ≤
      calculate_power_for_sample_size ratCDF ratPPF (1/5) 3 ((4:ℤ):ℝ) (1/2) true :=
  C10_power_monotone_in_n ratCDF ratPPF (1/5) 3 (1/2) true 1 4
    (by norm_num) (by norm_num) (by norm_num)
    (by unfold variantRatePower; norm_num)
    (by norm_num) (by norm_num) (by norm_num) (by norm_num)
    ratCDF_monotone

/-- C1 (amended): the round-trip bound holds whenever the critical value is
taken at or above the median — always so in two-tailed mode, and in one-tailed
mode when significance is at most 1/2.  Feeding the finite sample size `k`
returned by `calculate_sample_size` back into
`calculate_power_for_sample_size` with the same parameters yields at least the
requested power minus 1/1000 (in fact at least the requested power before the
0.9999 clamp). -/
theorem C1_round_trip (cdf ppf : ℝ → ℝ) (b m pw s : ℝ) (tt : Bool) (k : ℤ)
    (hb0 : 0 < b) (hb1 : b < 1) (hm : 0 < m)
    (hpw0 : 0 < pw) (hpw1 : pw < 1) (hs0 : 0 < s) (hs1 : s < 1)
    (hz : tt = true ∨ s ≤ 1/2)
    (hne : variantRateSize b m ≠ b)
    (hk : calculate_sample_size ppf b m pw s tt = (k : WithTop ℤ))
    (hk1 : 1 ≤ k)
    (hcdf_mono : Monotone cdf)
    (hinv : cdf (ppf pw) = pw)
    (hppf_nonneg : ∀ q, 1/2 ≤ q → q < 1 → 0 ≤ ppf q) :
    pw - 1/1000 ≤
      calculate_power_for_sample_size cdf ppf b m (k:ℝ) s tt := by
  have hk0 : (0:ℝ) < (k:ℝ) := by exact_mod_cast hk1
  have hp2pos : 0 < variantRateSize b m := variantRateSize_pos b m hb0 hm
  have hp2le : variantRateSize b m ≤ 1 := variantRateSize_le_one b m
  have hv : 0 < b * (1 - b) +
      variantRateSize b m * (1 - variantRateSize b m) := by
    have h1 : 0 < b * (1 - b) := mul_pos hb0 (by linarith)
    have h2 : 0 ≤ variantRateSize b m * (1 - variantRateSize b m) :=
      mul_nonneg (le_of_lt hp2pos) (by linarith)
    linarith
  have hsv : 0 < Real.sqrt (b * (1 - b) +
      variantRateSize b m * (1 - variantRateSize b m)) := Real.sqrt_pos.mpr hv
  have hAv : b * (1 - b) + variantRateSize b m * (1 - variantRateSize b m) ≤
      2 * ((b + variantRateSize b m) / 2) *
        (1 - (b + variantRateSize b m) / 2) := by
    have := pooled_sub_unpooled b (variantRateSize b m)
    nlinarith [sq_nonneg (b - variantRateSize b m)]
  have hsasv : Real.sqrt (b * (1 - b) +
      variantRateSize b m * (1 - variantRateSize b m)) ≤
      Real.sqrt (2 * ((b + variantRateSize b m) / 2) *
        (1 - (b + variantRateSize b m) / 2)) := Real.sqrt_le_sqrt hAv
  have hza : 0 ≤ (if tt then ppf (1 - s / 2) else ppf (1 - s)) := by
    rcases hz with h | h
    · rw [h, if_pos rfl]
      exact hppf_nonneg _ (by linarith) (by linarith)
    · cases tt
      · rw [if_neg Bool.false_ne_true]
        exact hppf_nonneg _ (by linarith) (by linarith)
      · rw [if_pos rfl]
        exact hppf_nonneg _ (by linarith) (by linarith)
  -- extract the closed-form bound from the returned sample size
  rw [sampleSize_eq ppf b m pw s tt hne] at hk
  have hkeq : (⌈((if tt then ppf (1 - s / 2) else ppf (1 - s)) *
      Real.sqrt (2 * ((b + variantRateSize b m) / 2) *
        (1 - (b + variantRateSize b m) / 2)) +
      ppf pw * Real.sqrt (b * (1 - b) +
        variantRateSize b m * (1 - variantRateSize b m))) ^ 2 /
      (variantRateSize b m - b) ^ 2⌉ : ℤ) = k := by
    exact_mod_cast hk
  have hden : (0:ℝ) < (variantRateSize b m - b) ^ 2 := by
    have hne2 : variantRateSize b m - b ≠ 0 := sub_ne_zero.mpr hne
    exact lt_of_le_of_ne (sq_nonneg _) (Ne.symm (pow_ne_zero 2 hne2))
  have hnk : ((if tt then ppf (1 - s / 2) else ppf (1 - s)) *
      Real.sqrt (2 * ((b + variantRateSize b m) / 2) *
        (1 - (b + variantRateSize b m) / 2)) +
      ppf pw * Real.sqrt (b * (1 - b) +
        variantRateSize b m * (1 - variantRateSize b m))) ^ 2 /
      (variantRateSize b m - b) ^ 2 ≤ (k:ℝ) := by
    have h := Int.le_ceil (((if tt then ppf (1 - s / 2) else ppf (1 - s)) *
      Real.sqrt (2 * ((b + variantRateSize b m) / 2) *
        (1 - (b + variantRateSize b m) / 2)) +
      ppf pw * Real.sqrt (b * (1 - b) +
        variantRateSize b m * (1 - variantRateSize b m))) ^ 2 /
      (variantRateSize b m - b) ^ 2)
    rw [hkeq] at h
    exact h
  have hnum_le : ((if tt then ppf (1 - s / 2) else ppf (1 - s)) *
      Real.sqrt (2 * ((b + variantRateSize b m) / 2) *
        (1 - (b + variantRateSize b m) / 2)) +
      ppf pw * Real.sqrt (b * (1 - b) +
        variantRateSize b m * (1 - variantRateSize b m))) ^ 2 ≤
      (k:ℝ) * (variantRateSize b m - b) ^ 2 := by
    rw [div_le_iff hden] at hnk
    linarith
  -- bound the absolute closed-form numerator by √k · |p2 − p1|
  have habsB : |(if tt then ppf (1 - s / 2) else ppf (1 - s)) *
      Real.sqrt (2 * ((b + variantRateSize b m) / 2) *
        (1 - (b + variantRateSize b m) / 2)) +
      ppf pw * Real.sqrt (b * (1 - b) +
        variantRateSize b m * (1 - variantRateSize b m))| ≤
      Real.sqrt (k:ℝ) * |variantRateSize b m - b| := by
    rw [← Real.sqrt_sq_eq_abs]
    calc Real.sqrt (((if tt then ppf (1 - s / 2) else ppf (1 - s)) *
        Real.sqrt (2 * ((b + variantRateSize b m) / 2) *
          (1 - (b + variantRateSize b m) / 2)) +
        ppf pw * Real.sqrt (b * (1 - b) +
          variantRateSize b m * (1 - variantRateSize b m))) ^ 2) ≤
        Real.sqrt ((k:ℝ) * (variantRateSize b m - b) ^ 2) :=
          Real.sqrt_le_sqrt hnum_le
    _ = Real.sqrt (k:ℝ) * |variantRateSize b m - b| := by
          rw [Real.sqrt_mul (le_of_lt hk0), Real.sqrt_sq_eq_abs]
  have hkey : ((if tt then ppf (1 - s / 2) else ppf (1 - s)) + ppf pw) *
      Real.sqrt (b * (1 - b) +
        variantRateSize b m * (1 - variantRateSize b m)) ≤
      Real.sqrt (k:ℝ) * |variantRateSize b m - b| := by
    have h1 : (if tt then ppf (1 - s / 2) else ppf (1 - s)) *
        Real.sqrt (b * (1 - b) +
          variantRateSize b m * (1 - variantRateSize b m)) ≤
        (if tt then ppf (1 - s / 2) else ppf (1 - s)) *
        Real.sqrt (2 * ((b + variantRateSize b m) / 2) *
          (1 - (b + variantRateSize b m) / 2)) :=
      mul_le_mul_of_nonneg_left hsasv hza
    have h2 := le_abs_self ((if tt then ppf (1 - s / 2) else ppf (1 - s)) *
        Real.sqrt (2 * ((b + variantRateSize b m) / 2) *
          (1 - (b + variantRateSize b m) / 2)) +
        ppf pw * Real.sqrt (b * (1 - b) +
          variantRateSize b m * (1 - variantRateSize b m)))
    nlinarith [habsB]
  -- now evaluate the power function at k
  have hvp : variantRatePower b m = variantRateSize b m := (variantRate_eq b m).symm
  have hargeq : b * (1 - b) / (k:ℝ) +
      variantRatePower b m * (1 - variantRatePower b m) / (k:ℝ) =
      (b * (1 - b) + variantRateSize b m * (1 - variantRateSize b m)) / (k:ℝ) := by
    rw [hvp]
    ring
  have hse : Real.sqrt (b * (1 - b) / (k:ℝ) +
      variantRatePower b m * (1 - variantRatePower b m) / (k:ℝ)) ≠ 0 := by
    rw [hargeq]
    exact ne_of_gt (Real.sqrt_pos.mpr (div_pos hv hk0))
  rw [power_eq cdf ppf b m (k:ℝ) s tt hse, hargeq, hvp,
    Real.sqrt_div (le_of_lt hv) (k:ℝ)]
  apply le_min
  · have hle : ppf pw ≤ |variantRateSize b m - b| /
        (Real.sqrt (b * (1 - b) +
          variantRateSize b m * (1 - variantRateSize b m)) / Real.sqrt (k:ℝ)) -
        (if tt then ppf (1 - s / 2) else ppf (1 - s)) := by
      rw [le_sub_iff_add_le, div_div_eq_mul_div, add_comm]
      rw [le_div_iff hsv]
      have hsk : 0 < Real.sqrt (k:ℝ) := Real.sqrt_pos.mpr hk0
      calc ((if tt then ppf (1 - s / 2) else ppf (1 - s)) + ppf pw) *
          Real.sqrt (b * (1 - b) +
            variantRateSize b m * (1 - variantRateSize b m)) ≤
          Real.sqrt (k:ℝ) * |variantRateSize b m - b| := hkey
      _ = |variantRateSize b m - b| * Real.sqrt (k:ℝ) := by ring
    have := hcdf_mono hle
    rw [hinv] at this
    linarith
  · norm_num
    linarith

/-- Witness for C1 (amended): baseline 1/5, relative effect 3, power 3/4,
significance 1/2, two-tailed with the concrete stand-ins; the engine returns
5 (the closed-form value is 9/2) and the round-trip bound holds at it. -/
theorem C1_round_trip_witness :
    (3:ℝ)/4 - 1/1000 ≤
      calculate_power_for_sample_size ratCDF ratPPF (1/5) 3 ((5:ℤ):ℝ) (1/2) true :=
  C1_round_trip ratCDF ratPPF (1/5) 3 (3/4) (1/2) true 5
    (by norm_num) (by norm_num) (by norm_num) (by norm_num) (by norm_num)
    (by norm_num) (by norm_num) (Or.inl rfl)
    (by rw [vrs_15_3]; norm_num)
    (by
      rw [sampleSize_eq ratPPF (1/5) 3 (3/4) (1/2) true
        (by rw [vrs_15_3]; norm_num), vrs_15_3]
      rw [if_pos rfl]
      rw [show (1 - 1/2/2 : ℝ) = 3/4 by norm_num, ratPPF_val_34,
        sqrtA_15_45, sqrtV_15_45]
      have hsq : Real.sqrt 2 ^ 2 = 2 := Real.sq_sqrt (by norm_num)
      have hB : (1 * (Real.sqrt 2 / 2) + 1 * (2 * Real.sqrt 2 / 5)) ^ 2 =
          81/50 := by
        rw [show (1 * (Real.sqrt 2 / 2) + 1 * (2 * Real.sqrt 2 / 5)) =
          9/10 * Real.sqrt 2 by ring]
        rw [mul_pow, hsq]
        norm_num
      rw [hB]
      norm_num [Int.ceil_eq_iff])
    (by norm_num)
    ratCDF_monotone
    (ratCDF_ratPPF (3/4) (by norm_num) (by norm_num))
    (fun q h1 h2 => ratPPF_nonneg q h1 h2)

/-- C1 counterexample: the claim quantifies over the full stated domains,
including one-tailed mode with significance above 1/2, where the critical
value `z_alpha = Φ⁻¹(1 − significance)` is negative.  With the concrete
stand-ins (which satisfy monotonicity, the `cdf ∘ ppf` identity and
nonnegativity above the median) at baseline 1/10, relative effect 15/2
(`p2 = 17/20`), power 11/12, significance 5/6, one-tailed, the engine returns
the sample size 2, but feeding 2 back into the power engine yields a power
strictly below the requested 11/12 minus the 1/1000 tolerance. -/
theorem C1_round_trip_counterexample :
    calculate_sample_size ratPPF (1/10) (15/2) (11/12) (5/6) false =
      ((2:ℤ) : WithTop ℤ) ∧
    calculate_power_for_sample_size ratCDF ratPPF (1/10) (15/2) ((2:ℤ):ℝ) (5/6) false
      < 11/12 - 1/1000 := by
  have hvrs : variantRateSize (1/10) (15/2) = 17/20 := by
    unfold variantRateSize
    rw [if_neg (by norm_num)]
    norm_num
  constructor
  · rw [sampleSize_eq ratPPF (1/10) (15/2) (11/12) (5/6) false
      (by rw [hvrs]; norm_num), hvrs]
    rw [if_neg Bool.false_ne_true]
    rw [show (1 - (5:ℝ)/6) = 1/6 by norm_num, ratPPF_val_16, ratPPF_val_1112]
    rw [show 2 * (((1:ℝ)/10 + 17/20) / 2) * (1 - ((1:ℝ)/10 + 17/20) / 2) =
      399/800 by norm_num]
    rw [show (1:ℝ)/10 * (1 - 1/10) + 17/20 * (1 - 17/20) = 87/400 by norm_num]
    have ha : Real.sqrt ((399:ℝ)/800) ^ 2 = 399/800 :=
      Real.sq_sqrt (by norm_num)
    have hb : Real.sqrt ((87:ℝ)/400) ^ 2 = 87/400 :=
      Real.sq_sqrt (by norm_num)
    have hab : Real.sqrt ((399:ℝ)/800) * Real.sqrt ((87:ℝ)/400) =
        Real.sqrt ((34713:ℝ)/320000) := by
      rw [← Real.sqrt_mul (by norm_num : (0:ℝ) ≤ 399/800)]
      norm_num
    have hB2 : (-2 * Real.sqrt ((399:ℝ)/800) + 5 * Real.sqrt ((87:ℝ)/400)) ^ 2
        = 2973/400 - 20 * Real.sqrt ((34713:ℝ)/320000) := by
      have expand : (-2 * Real.sqrt ((399:ℝ)/800) + 5 * Real.sqrt ((87:ℝ)/400)) ^ 2
          = 4 * (Real.sqrt ((399:ℝ)/800) ^ 2) + 25 * (Real.sqrt ((87:ℝ)/400) ^ 2)
            - 20 * (Real.sqrt ((399:ℝ)/800) * Real.sqrt ((87:ℝ)/400)) := by
        ring
      rw [expand, ha, hb, hab]
      norm_num
    rw [hB2, show ((17:ℝ)/20 - 1/10) ^ 2 = 9/16 by norm_num]
    have hs_lo : (2523:ℝ)/8000 ≤ Real.sqrt ((34713:ℝ)/320000) :=
      le_sqrt_of_sq _ _ (by norm_num) (by norm_num)
    have hs_hi : Real.sqrt ((34713:ℝ)/320000) < 687/2000 :=
      sqrt_lt_of_sq _ _ (by norm_num) (by norm_num)
    have hceil : (⌈(2973/400 - 20 * Real.sqrt ((34713:ℝ)/320000)) / (9/16 : ℝ)⌉ : ℤ)
        = 2 := by
      rw [Int.ceil_eq_iff]
      constructor
      · rw [lt_div_iff (by norm_num : (0:ℝ) < 9/16)]
        push_cast
        linarith
      · rw [div_le_iff (by norm_num : (0:ℝ) < 9/16)]
        push_cast
        linarith
    rw [hceil]
  · have hvp : variantRatePower (1/10) (15/2) = 17/20 := by
      unfold variantRatePower
      rw [if_neg (by norm_num)]
      norm_num
    have hargeq : (1:ℝ)/10 * (1 - 1/10) / ((2:ℤ):ℝ) +
        variantRatePower (1/10) (15/2) *
          (1 - variantRatePower (1/10) (15/2)) / ((2:ℤ):ℝ) = 87/800 := by
      rw [hvp]
      push_cast
      norm_num
    have hse : Real.sqrt ((1:ℝ)/10 * (1 - 1/10) / ((2:ℤ):ℝ) +
        variantRatePower (1/10) (15/2) *
          (1 - variantRatePower (1/10) (15/2)) / ((2:ℤ):ℝ)) ≠ 0 := by
      rw [hargeq]
      exact ne_of_gt (Real.sqrt_pos.mpr (by norm_num))
    rw [power_eq ratCDF ratPPF (1/10) (15/2) ((2:ℤ):ℝ) (5/6) false hse,
      hargeq, hvp]
    rw [if_neg Bool.false_ne_true,
      show (1 - (5:ℝ)/6) = 1/6 by norm_num, ratPPF_val_16]
    rw [show |(17:ℝ)/20 - 1/10| = 3/4 by
      rw [show ((17:ℝ)/20 - 1/10) = 3/4 by norm_num]
      exact abs_of_nonneg (by norm_num)]
    have hsq_lo : (15:ℝ)/58 ≤ Real.sqrt ((87:ℝ)/800) :=
      le_sqrt_of_sq _ _ (by norm_num) (by norm_num)
    have hsp : (0:ℝ) < Real.sqrt ((87:ℝ)/800) :=
      lt_of_lt_of_le (by norm_num) hsq_lo
    have hdivle : (3:ℝ)/4 / Real.sqrt ((87:ℝ)/800) ≤ 29/10 := by
      rw [div_le_iff hsp]
      nlinarith [hsq_lo]
    have hxle : (3:ℝ)/4 / Real.sqrt ((87:ℝ)/800) - (-2) ≤ 49/10 := by
      linarith
    have hcdf49 : ratCDF (49/10) = 54/59 := by
      unfold ratCDF
      rw [abs_of_nonneg (by norm_num : (0:ℝ) ≤ 49/10)]
      norm_num
    calc min (ratCDF ((3:ℝ)/4 / Real.sqrt ((87:ℝ)/800) - (-2))) 0.9999 ≤
        ratCDF ((3:ℝ)/4 / Real.sqrt ((87:ℝ)/800) - (-2)) := min_le_left _ _
    _ ≤ ratCDF (49/10) := ratCDF_monotone hxle
    _ = 54/59 := hcdf49
    _ < 11/12 - 1/1000 := by norm_num

/-- Clamped variant rate at baseline 1/20 (5%) with relative effect 1/10
(10%): `p2 = 11/200 = 5.5%`, unclamped. -/
theorem vrs_scenario : variantRateSize (1/20) (1/10) = 11/200 := by
  unfold variantRateSize
  rw [if_neg (by norm_num)]
  norm_num

/-- C9 (amended): for any quantile function taking values within 1/1000 of
the true Gaussian `z_alpha ≈ 1.96` and `z_beta ≈ 0.8416`, the engine at
baseline 5%, relative effect 10%, power 80%, significance 5%, two-tailed
returns a per-variant sample size between 31,100 and 31,400 (the exact
closed-form value is ≈31,234) — roughly double the 14,700–14,800 the claim
asserts. -/
theorem C9_concrete_scenario (ppf : ℝ → ℝ)
    (hza_lo : 1959/1000 ≤ ppf (39/40)) (hza_hi : ppf (39/40) ≤ 1961/1000)
    (hzb_lo : 8406/10000 ≤ ppf (4/5)) (hzb_hi : ppf (4/5) ≤ 8426/10000) :
    ((31100:ℤ) : WithTop ℤ) ≤
      calculate_sample_size ppf (1/20) (1/10) (4/5) (1/20) true ∧
    calculate_sample_size ppf (1/20) (1/10) (4/5) (1/20) true ≤
      ((31400:ℤ) : WithTop ℤ) := by
  rw [sampleSize_eq ppf (1/20) (1/10) (4/5) (1/20) true
    (by rw [vrs_scenario]; norm_num), vrs_scenario]
  rw [if_pos rfl]
  rw [show (1 - 1/20/2 : ℝ) = 39/40 by norm_num]
  rw [show 2 * (((1:ℝ)/20 + 11/200) / 2) * (1 - ((1:ℝ)/20 + 11/200) / 2) =
    7959/80000 by norm_num]
  rw [show (1:ℝ)/20 * (1 - 1/20) + 11/200 * (1 - 11/200) = 3979/40000 by
    norm_num]
  rw [show ((11:ℝ)/200 - 1/20) ^ 2 = 1/40000 by norm_num]
  have hza0 : (0:ℝ) ≤ ppf (39/40) := le_trans (by norm_num) hza_lo
  have hzb0 : (0:ℝ) ≤ ppf (4/5) := le_trans (by norm_num) hzb_lo
  have hsa_lo : (31541:ℝ)/100000 ≤ Real.sqrt ((7959:ℝ)/80000) :=
    le_sqrt_of_sq _ _ (by norm_num) (by norm_num)
  have hsa_hi : Real.sqrt ((7959:ℝ)/80000) ≤ 31542/100000 :=
    sqrt_le_of_sq _ _ (by norm_num) (by norm_num)
  have hsv_lo : (31539:ℝ)/100000 ≤ Real.sqrt ((3979:ℝ)/40000) :=
    le_sqrt_of_sq _ _ (by norm_num) (by norm_num)
  have hsv_hi : Real.sqrt ((3979:ℝ)/40000) ≤ 31540/100000 :=
    sqrt_le_of_sq _ _ (by norm_num) (by norm_num)
  have hsa0 : (0:ℝ) ≤ Real.sqrt ((7959:ℝ)/80000) := Real.sqrt_nonneg _
  have hsv0 : (0:ℝ) ≤ Real.sqrt ((3979:ℝ)/40000) := Real.sqrt_nonneg _
  have hB_lo : (883:ℝ)/1000 ≤ ppf (39/40) * Real.sqrt ((7959:ℝ)/80000) +
      ppf (4/5) * Real.sqrt ((3979:ℝ)/40000) := by
    calc (883:ℝ)/1000 ≤
        1959/1000 * (31541/100000) + 8406/10000 * (31539/100000) := by norm_num
    _ ≤ ppf (39/40) * Real.sqrt ((7959:ℝ)/80000) +
        ppf (4/5) * Real.sqrt ((3979:ℝ)/40000) := by
      gcongr
  have hB_hi : ppf (39/40) * Real.sqrt ((7959:ℝ)/80000) +
      ppf (4/5) * Real.sqrt ((3979:ℝ)/40000) ≤ 8843/10000 := by
    have step : ppf (39/40) * Real.sqrt ((7959:ℝ)/80000) +
        ppf (4/5) * Real.sqrt ((3979:ℝ)/40000) ≤
        1961/1000 * (31542/100000) + 8426/10000 * (31540/100000) := by
      gcongr
    calc ppf (39/40) * Real.sqrt ((7959:ℝ)/80000) +
        ppf (4/5) * Real.sqrt ((3979:ℝ)/40000) ≤
        1961/1000 * (31542/100000) + 8426/10000 * (31540/100000) := step
    _ ≤ 8843/10000 := by norm_num
  have hB0 : (0:ℝ) ≤ ppf (39/40) * Real.sqrt ((7959:ℝ)/80000) +
      ppf (4/5) * Real.sqrt ((3979:ℝ)/40000) := le_trans (by norm_num) hB_lo
  have hB2_lo : ((883:ℝ)/1000)^2 ≤ (ppf (39/40) * Real.sqrt ((7959:ℝ)/80000) +
      ppf (4/5) * Real.sqrt ((3979:ℝ)/40000))^2 :=
    pow_le_pow_left (by norm_num) hB_lo 2
  have hB2_hi : (ppf (39/40) * Real.sqrt ((7959:ℝ)/80000) +
      ppf (4/5) * Real.sqrt ((3979:ℝ)/40000))^2 ≤ ((8843:ℝ)/10000)^2 :=
    pow_le_pow_left hB0 hB_hi 2
  constructor
  · rw [WithTop.coe_le_coe]
    have hlt : (31099:ℝ) < (ppf (39/40) * Real.sqrt ((7959:ℝ)/80000) +
        ppf (4/5) * Real.sqrt ((3979:ℝ)/40000))^2 / (1/40000) := by
      rw [lt_div_iff (by norm_num : (0:ℝ) < 1/40000)]
      nlinarith [hB2_lo]
    have := Int.lt_ceil.mpr (by exact_mod_cast hlt :
      ((31099:ℤ):ℝ) < (ppf (39/40) * Real.sqrt ((7959:ℝ)/80000) +
        ppf (4/5) * Real.sqrt ((3979:ℝ)/40000))^2 / (1/40000))
    omega
  · rw [WithTop.coe_le_coe]
    apply Int.ceil_le.mpr
    rw [div_le_iff (by norm_num : (0:ℝ) < 1/40000)]
    push_cast
    nlinarith [hB2_hi]

/-- Witness for C9 (amended) with the step quantile stand-in pinned to the
Gaussian values 1.96 and 0.8416. -/
theorem C9_concrete_scenario_witness :
    ((31100:ℤ) : WithTop ℤ) ≤
      calculate_sample_size stepPPF (1/20) (1/10) (4/5) (1/20) true ∧
    calculate_sample_size stepPPF (1/20) (1/10) (4/5) (1/20) true ≤
      ((31400:ℤ) : WithTop ℤ) :=
  C9_concrete_scenario stepPPF
    (by unfold stepPPF; rw [if_neg (by norm_num)]; norm_num)
    (by unfold stepPPF; rw [if_neg (by norm_num)]; norm_num)
    (by unfold stepPPF; rw [if_pos le_rfl]; norm_num)
    (by unfold stepPPF; rw [if_pos le_rfl]; norm_num)

/-- C9 counterexample: with a quantile function pinned EXACTLY to the values
the claim itself quotes (`z_alpha = 1.96`, `z_beta = 0.8416`), the engine at
baseline 5%, relative effect 10%, power 80%, significance 5%, two-tailed
returns a per-variant sample size of at least 14,801 — strictly above the
claimed range 14,700–14,800 (the true value is ≈31,234). -/
theorem C9_concrete_counterexample :
    (1959/1000 ≤ stepPPF (39/40) ∧ stepPPF (39/40) ≤ 1961/1000 ∧
     8406/10000 ≤ stepPPF (4/5) ∧ stepPPF (4/5) ≤ 8426/10000) ∧
    ((14801:ℤ) : WithTop ℤ) ≤
      calculate_sample_size stepPPF (1/20) (1/10) (4/5) (1/20) true := by
  have hw1 : stepPPF (39/40) = 49/25 := by
    unfold stepPPF
    rw [if_neg (by norm_num)]
    norm_num
  have hw2 : stepPPF (4/5) = 526/625 := by
    unfold stepPPF
    rw [if_pos le_rfl]
    norm_num
  refine ⟨⟨by rw [hw1]; norm_num, by rw [hw1]; norm_num,
    by rw [hw2]; norm_num, by rw [hw2]; norm_num⟩, ?_⟩
  rw [sampleSize_eq stepPPF (1/20) (1/10) (4/5) (1/20) true
    (by rw [vrs_scenario]; norm_num), vrs_scenario]
  rw [if_pos rfl]
  rw [show (1 - 1/20/2 : ℝ) = 39/40 by norm_num, hw1, hw2]
  rw [show 2 * (((1:ℝ)/20 + 11/200) / 2) * (1 - ((1:ℝ)/20 + 11/200) / 2) =
    7959/80000 by norm_num]
  rw [show (1:ℝ)/20 * (1 - 1/20) + 11/200 * (1 - 11/200) = 3979/40000 by
    norm_num]
  rw [show ((11:ℝ)/200 - 1/20) ^ 2 = 1/40000 by norm_num]
  rw [WithTop.coe_le_coe]
  have hann : (0:ℝ) ≤ 49/25 * Real.sqrt ((7959:ℝ)/80000) := by positivity
  have hbnn : (0:ℝ) ≤ 526/625 * Real.sqrt ((3979:ℝ)/40000) := by positivity
  have ha : ((49:ℝ)/25 * Real.sqrt ((7959:ℝ)/80000))^2 =
      (49/25)^2 * (7959/80000) := by
    rw [mul_pow, Real.sq_sqrt (by norm_num : (0:ℝ) ≤ 7959/80000)]
  have hb : ((526:ℝ)/625 * Real.sqrt ((3979:ℝ)/40000))^2 =
      (526/625)^2 * (3979/40000) := by
    rw [mul_pow, Real.sq_sqrt (by norm_num : (0:ℝ) ≤ 3979/40000)]
  have hB2 : ((49:ℝ)/25)^2 * (7959/80000) + ((526:ℝ)/625)^2 * (3979/40000) ≤
      (49/25 * Real.sqrt ((7959:ℝ)/80000) +
        526/625 * Real.sqrt ((3979:ℝ)/40000))^2 := by
    nlinarith [mul_nonneg hann hbnn]
  have hlt : (14800:ℝ) < (49/25 * Real.sqrt ((7959:ℝ)/80000) +
      526/625 * Real.sqrt ((3979:ℝ)/40000))^2 / (1/40000) := by
    rw [lt_div_iff (by norm_num : (0:ℝ) < 1/40000)]
    nlinarith [hB2]
  have := Int.lt_ceil.mpr (by exact_mod_cast hlt :
    ((14800:ℤ):ℝ) < (49/25 * Real.sqrt ((7959:ℝ)/80000) +
      526/625 * Real.sqrt ((3979:ℝ)/40000))^2 / (1/40000))
  omega
